import Mathlib

/-!
Verification development for the bytefall bytecode interpreter
(a pure-Python re-implementation of the CPython 3.4-3.8 evaluation loop).

Each section embeds one part of the source shallowly in Lean:
Python lists become Lean lists (with the head of the list modelling the
top of a value stack), Python dicts become insertion-ordered association
lists, machine-independent Python integers become Int/Nat, and fallible
code returns Except.  Theorems then settle claims about the spec.
-/

namespace Bytefall

/- ## Line-number table decoding
   Source: bytefall/objects/frameobject.py, _get_lineno and the f_lineno
   property; bytefall/_utils.py, check_line_number.
   The lnotab is modelled as the list of its (addr_incr, line_incr) byte
   pairs; each component is a byte, hence a Nat below 256. -/

/-- From frameobject._get_lineno: accumulate (addr_incr, line_incr) pairs;
return the line (relative to co_firstlineno) of the last pair whose
accumulated address does not exceed the target offset.  A line_incr byte
0x80 or above is treated as signed (line_incr - 0x100). -/
def getLinenoAux (target : Nat) : List (Nat × Nat) → Nat → Int → Int
  | [], _, lineno => lineno
  | (ai, li) :: rest, addr, lineno =>
    let addr' := addr + ai
    if addr' > target then lineno
    else
      let li' : Int := if li ≥ 0x80 then (li : Int) - 0x100 else (li : Int)
      getLinenoAux target rest addr' (lineno + li')

/-- frameobject._get_lineno applied to a frame whose f_lasti is target. -/
def get_lineno (lnotab : List (Nat × Nat)) (target : Nat) : Int :=
  getLinenoAux target lnotab 0 0

/-- The Frame.f_lineno property: _get_lineno plus co_firstlineno. -/
def f_lineno (lnotab : List (Nat × Nat)) (firstlineno : Int) (lasti : Nat) : Int :=
  get_lineno lnotab lasti + firstlineno

/-- From _utils.check_line_number: the while loop.  State carries the
accumulated address, the lower bound lb and the line so far.  Note the
source adds the raw line_incr byte with NO signed interpretation. -/
def checkLineNumberAux (lasti : Nat) :
    List (Nat × Nat) → Nat → Nat → Int → Int × Nat × Nat
  | [], _, lb, line => (line, lb, 32767)
  | (ai, li) :: rest, addr, _lb, line =>
    if addr + ai > lasti then (line, _lb, addr + ai)
    else checkLineNumberAux lasti rest (addr + ai) (addr + ai) (line + (li : Int))

/-- The function check_line_number: returns (line, lb, ub) for a code object
with the given lnotab pairs and first line number at offset lasti. -/
def check_line_number (lnotab : List (Nat × Nat)) (firstlineno : Int)
    (lasti : Nat) : Int × Nat × Nat :=
  checkLineNumberAux lasti lnotab 0 0 firstlineno

/- ## Shared runtime vocabulary -/

/-- The continuation reason returned by opcode handlers; the source uses
the strings 'return', 'break', 'continue', 'exception', 'reraise',
'yield', 'silenced', 'extended_arg'. -/
inductive Why where
  | ret
  | breakW
  | continueW
  | exception
  | reraise
  | yieldW
  | silenced
  | extendedArg
deriving DecidableEq, Repr

/-- Host exception kinds that the embedded fragments raise or catch. -/
inductive PyExc where
  | stopIteration
  | generatorExit
  | runtimeError (msg : String)
  | typeError
  | indexError
  | valueError
  | attributeError
  | assertionError
  | vmError
  | other (n : Nat)
deriving DecidableEq, Repr

/-- Scalar runtime values (the claims that quantify over yielded or sent
values use these so that None, False and 0 are all present). -/
inductive PyScalar where
  | none
  | bool (b : Bool)
  | int (n : Int)
  | str (s : String)
deriving DecidableEq, Repr

/- ## Dispatch exception trapping
   Source: bytefall/vm.py, VirtualMachine.dispatch.  The handler call is
   modelled by its outcome: either a continuation reason (Option Why,
   None for the common fall-through) or a raised exception carrying
   (type, value, traceback).  sys.exc_info()[:2] + (None,) keeps the
   type and value and replaces the traceback by None. -/

/-- VirtualMachine.dispatch: run the handler; on any exception, if not
in internal-debug mode, store (type, value, None) as last_exception and
return why = 'exception'; in debug mode re-raise. -/
def dispatch {T V B : Type} (debug : Bool)
    (handler : Except (T × V × Option B) (Option Why))
    (lastExc : Option (T × V × Option B)) :
    Except (T × V × Option B) (Option Why × Option (T × V × Option B)) :=
  match handler with
  | .ok why => .ok (why, lastExc)
  | .error e =>
    if debug then .error e
    else .ok (some .exception, some (e.1, e.2.1, none))

/- ## Generator resume linking
   Source: bytefall/vm.py, VirtualMachine.resume_frame.  The nested
   evaluator run is a parameter: it observes the frame after the link is
   installed and either returns a value or propagates an exception.
   The source statements touch no frame field other than f_back. -/

/-- A frame as seen by resume_frame: only the back pointer matters.
Frames are identified by numbers. -/
structure GenFrame where
  f_back : Option Nat
deriving DecidableEq, Repr

/-- VirtualMachine.resume_frame: set frame.f_back to the VM's current top
frame, run the nested evaluator, then set f_back back to None.  The
reset statement is written after the run with no try/finally, so it does
not execute when the run propagates an exception. -/
def resume_frame {E V : Type} (curTop : Option Nat)
    (run : GenFrame → Except E V) (frame : GenFrame) :
    Except E V × GenFrame :=
  let linked : GenFrame := { frame with f_back := curTop }
  match run linked with
  | .ok v => (.ok v, { linked with f_back := none })
  | .error e => (.error e, linked)

/- ## FOR_ITER
   Source: bytefall/ops.py, Operation.FOR_ITER.  The handler reads
   element = next(frame.top(), void) where void = object() is freshly
   created, so the sentinel is identical to no value the iterator can
   yield; exhaustion is therefore exactly the IterNext.exhausted case
   below, and every yielded value — None, False, 0 included — lands in
   IterNext.yields. -/

/-- Outcome of advancing the top-of-stack iterator once. -/
inductive IterNext (V : Type) where
  | yields (v : V)
  | exhausted
  | raises (e : PyExc)
deriving DecidableEq, Repr

/-- A frame as the iteration and yield opcodes see it: the value stack
(list head = top of stack) and the instruction cursor. -/
structure OpState (V : Type) where
  stack : List V
  f_lasti : Int
deriving DecidableEq, Repr

/-- Operation.FOR_ITER: advance the top iterator; push the element on a
normal advance, pop the iterator and jump to the decoded target on
exhaustion; any other exception from the iterator propagates. -/
def FOR_ITER {V : Type} (jump : Int) (nextRes : IterNext V)
    (st : OpState V) : Except PyExc (OpState V) :=
  match st.stack with
  | [] => .error .indexError
  | x :: rest =>
    match nextRes with
    | .yields v => .ok ⟨v :: x :: rest, st.f_lasti⟩
    | .exhausted => .ok ⟨rest, jump⟩
    | .raises e => .error e

/- ## YIELD_FROM
   Source: bytefall/ops.py, Operation.YIELD_FROM.  The sub-iterator is
   the value below the sent value; the handler only interacts with it
   through send/next, modelled by the SubIter record.  CODE_UNIT is 1
   for host versions before 3.6 and 2 afterwards; it is a parameter. -/

/-- One response of the sub-iterator: a yielded value, a StopIteration
carrying its value attribute, or another raised exception. -/
inductive IterStep (V : Type) where
  | yields (v : V)
  | stopIter (value : V)
  | raises (e : PyExc)
deriving DecidableEq, Repr

/-- The sub-iterator on top of the stack: whether it is a Generator or
Coroutine instance, its send method and its next behaviour. -/
structure SubIter (V : Type) where
  isGenOrCoro : Bool
  send : V → IterStep V
  next : IterStep V

/-- Result of one YIELD_FROM dispatch: the returned why, the frame state
after, and the value written to the return_value scratch slot (none when
the slot is not written). -/
structure YFOut (V : Type) where
  why : Option Why
  state : OpState V
  retval : Option V
deriving DecidableEq, Repr

/-- Operation.YIELD_FROM: pop the sent value u, peek the sub-iterator x;
call x.send(u) if x is a Generator/Coroutine else next(x); on success
store the result in return_value, rewind the cursor by one code unit and
return 'yield'; on StopIteration pop the sub-iterator and push the
exception's value; other exceptions propagate. -/
def YIELD_FROM {V : Type} (codeUnit : Int) (x : SubIter V)
    (st : OpState V) : Except PyExc (YFOut V) :=
  match st.stack with
  | [] => .error .indexError
  | u :: rest =>
    match rest with
    | [] => .error .indexError
    | _xv :: below =>
      match (if x.isGenOrCoro then x.send u else x.next) with
      | .yields v =>
        .ok ⟨some .yieldW, ⟨rest, st.f_lasti - codeUnit⟩, some v⟩
      | .stopIter w => .ok ⟨none, ⟨w :: below, st.f_lasti⟩, none⟩
      | .raises e => .error e

/- ## Generator close
   Source: bytefall/objects/generatorobject.py, gen_close (and its use of
   gen_send_ex through Generator.send).  The resumption of the generator
   is a parameter: given the optional injected exception it either
   raises (StopIteration when the generator finished, GeneratorExit when
   the injected exception propagated, or anything else) or returns the
   value the generator yielded, where a Python None result is modelled
   as Option.none. -/

/-- Outcome of gen.send(None, exc=...) inside gen_close. -/
inductive SendResult (V : Type) where
  | raises (e : PyExc)
  | yields (v : Option V)
deriving DecidableEq, Repr

/-- What gen_close returns when it does not raise: None after a normal
termination, or the integer -1 when it falls through the final check. -/
inductive CloseOutcome where
  | closedNone
  | retNeg1
deriving DecidableEq, Repr

/-- gen_close: close the yielded-from sub-iterator if any (its result is
the err parameter when hasYf); when err = 0, arrange to resume the
generator with GeneratorExit; tolerate StopIteration/GeneratorExit from
the resumption as a normal close; raise RuntimeError only when the
resumption returned a value that `is not None`. -/
def gen_close {V : Type} (hasYf : Bool) (yfCloseErr : Int)
    (send : Option PyExc → SendResult V) : Except PyExc CloseOutcome :=
  let err := if hasYf then yfCloseErr else 0
  let exc : Option PyExc := if err = 0 then some .generatorExit else none
  match send exc with
  | .raises e =>
    if e = .stopIteration ∨ e = .generatorExit then .ok .closedNone
    else .error e
  | .yields v =>
    match v with
    | some _ => .error (.runtimeError "generator ignored GeneratorExit")
    | none => .ok .retNeg1

/- ## RAISE_VARARGS / do_raise
   Source: bytefall/ops.py, Operation.RAISE_VARARGS and do_raise.  The
   current exception ('new_exception' in the GlobalCache) is a triple
   whose "nothing is being handled" marker is (type(None), None, None) —
   the class NoneType, not the object None. -/

/-- The type slot of an exception triple: the object None itself, the
class NoneType (the marker the source stores when no exception is being
handled), or an exception class. -/
inductive ExcTy where
  | pyNone
  | noneType
  | cls (e : PyExc)
deriving DecidableEq, Repr

/-- Objects that can appear as the exc / cause operands of do_raise and
in the value and traceback slots of a triple. -/
inductive ExcObj where
  | noneO
  | typeO (e : PyExc)
  | instO (e : PyExc) (cause : Option PyExc)
  | otherO (n : Nat)
deriving DecidableEq, Repr

/-- An exception triple (type, value, traceback). -/
structure ExcTriple where
  ty : ExcTy
  val : ExcObj
  tb : ExcObj
deriving DecidableEq, Repr

/-- val.__cause__ = cause on an exception instance. -/
def setCause (v : ExcObj) (c : PyExc) : ExcObj :=
  match v with
  | .instO e _ => .instO e (some c)
  | x => x

/-- The tail of do_raise after exc_type and val are determined: handle
the cause, then set last_exception to (exc_type, val, val.__traceback__)
— a fresh instance has no traceback, modelled as None. -/
def doRaiseTail (excType : PyExc) (val : ExcObj) (cause : ExcObj) :
    Why × Option ExcTriple :=
  match cause with
  | .noneO => (.exception, some ⟨.cls excType, val, .noneO⟩)
  | .typeO ce => (.exception, some ⟨.cls excType, setCause val ce, .noneO⟩)
  | .instO ce _ => (.exception, some ⟨.cls excType, setCause val ce, .noneO⟩)
  | .otherO _ => (.exception, none)

/-- ops.do_raise: with exc None (bare raise), fetch the current exception
triple, store it as last_exception and return 'exception' if its type
slot is the object None else 'reraise'; with an exception class,
instantiate it; with an instance, use its class; otherwise fail.  The
second component is the last_exception written (none when the slot is
left untouched). -/
def do_raise (cur : ExcTriple) (exc cause : ExcObj) :
    Why × Option ExcTriple :=
  match exc with
  | .noneO =>
    (if cur.ty = .pyNone then .exception else .reraise, some cur)
  | .typeO e => doRaiseTail e (.instO e none) cause
  | .instO e c => doRaiseTail e (.instO e c) cause
  | .otherO _ => (.exception, none)

/-- Operation.RAISE_VARARGS: pop argc operands (deepest first: exc then
cause), pad with None, and delegate to do_raise; argc above 2 trips the
assert. -/
def RAISE_VARARGS (argc : Nat) (cur : ExcTriple) (stack : List ExcObj) :
    Except PyExc ((Why × Option ExcTriple) × List ExcObj) :=
  match argc, stack with
  | 0, st => .ok (do_raise cur .noneO .noneO, st)
  | 1, e :: st => .ok (do_raise cur e .noneO, st)
  | 2, c :: e :: st => .ok (do_raise cur e c, st)
  | 1, [] => .error .indexError
  | 2, _ => .error .indexError
  | _ + 3, _ => .error .assertionError

/- ## Runtime values with containers
   Containers keep Python's insertion order; set elements and dict keys
   are scalars (the hashable values these claims exercise), dict values
   and tuple elements are arbitrary. -/

/-- Runtime values for the container opcodes and for argument binding. -/
inductive PyVal where
  | scalar (s : PyScalar)
  | tuple (xs : List PyVal)
  | pyset (xs : List PyScalar)
  | pydict (xs : List (PyScalar × PyVal))
  | strdict (xs : List (String × PyVal))

/-- Python set.add: append the element unless already present. -/
def pySetAdd (xs : List PyScalar) (v : PyScalar) : List PyScalar :=
  if v ∈ xs then xs else xs ++ [v]

/-- Python dict item assignment d[k] = v over an insertion-ordered
association list: overwrite in place or append. -/
def assocSet {K V : Type} [DecidableEq K] (xs : List (K × V)) (k : K)
    (v : V) : List (K × V) :=
  if xs.any (fun p => decide (p.1 = k)) then
    xs.map (fun p => if p.1 = k then (k, v) else p)
  else xs ++ [(k, v)]

/- ## SET_ADD and MAP_ADD (3.4 operation table)
   Source: bytefall/ops.py, Operation.SET_ADD and Operation.MAP_ADD.
   The frame's value stack is modelled head-as-top, so the Python
   subscript stack[-count] (after the pops) is position count-1 from the
   head, and stack[-0] is Python's stack[0], the bottom element. -/

/-- The frame as these handlers see it: just the value stack. -/
structure ContainerFrame where
  stack : List PyVal

/-- Python stack[-count] on a head-as-top list. -/
def stackGet (l : List PyVal) (count : Nat) : Option PyVal :=
  if count = 0 then l.getLast? else l.get? (count - 1)

/-- Replace Python stack[-count] on a head-as-top list. -/
def stackSet (l : List PyVal) (count : Nat) (v : PyVal) : List PyVal :=
  if count = 0 then l.set (l.length - 1) v else l.set (count - 1) v

/-- Operation.SET_ADD: val = frame.pop(); frame.stack[-count].add(val).
A non-set target has no add attribute; a non-hashable value cannot be
added. -/
def SET_ADD (count : Nat) (f : ContainerFrame) :
    Except PyExc ContainerFrame :=
  match f.stack with
  | [] => .error .indexError
  | val :: rest =>
    match stackGet rest count with
    | none => .error .indexError
    | some (.pyset xs) =>
      match val with
      | .scalar s => .ok ⟨stackSet rest count (.pyset (pySetAdd xs s))⟩
      | _ => .error .typeError
    | some _ => .error .attributeError

/-- Operation.MAP_ADD: val, key = frame.popn(2) (val below key);
frame.stack[-count][key] = val.  A non-dict target does not support item
assignment; a non-hashable key cannot be used. -/
def MAP_ADD (count : Nat) (f : ContainerFrame) :
    Except PyExc ContainerFrame :=
  match f.stack with
  | key :: val :: rest =>
    match stackGet rest count with
    | none => .error .indexError
    | some (.pydict xs) =>
      match key with
      | .scalar k => .ok ⟨stackSet rest count (.pydict (assocSet xs k val))⟩
      | _ => .error .typeError
    | some _ => .error .typeError
  | _ => .error .indexError

/-- Modelled from the claim's words: SET_ADD pops the value and then
subscripts the frame object itself (frame[-count]).  The source Frame
class defines no __getitem__, so subscripting the frame raises TypeError
for every count before anything is added. -/
def SET_ADD_frameIndexed (count : Nat) (f : ContainerFrame) :
    Except PyExc ContainerFrame :=
  match count, f.stack with
  | _, [] => .error .indexError
  | _, _val :: _rest => .error .typeError

/-- Modelled from the claim's words: MAP_ADD popping two values and then
subscripting the frame object itself, which raises TypeError. -/
def MAP_ADD_frameIndexed (count : Nat) (f : ContainerFrame) :
    Except PyExc ContainerFrame :=
  match count, f.stack with
  | _, _key :: _val :: _rest => .error .typeError
  | _, _ => .error .indexError

/- ## Argument binding
   Source: bytefall/objects/funcobject.py, Function.__call__ up to the
   construction of the frame locals.  Python dicts over string keys are
   insertion-ordered association lists; Python's negative slice indices
   are reproduced by pySliceFrom / pySliceTo. -/

/-- Insertion-ordered dict update d[k] = v for string keys. -/
def dictSet (d : List (String × PyVal)) (k : String) (v : PyVal) :
    List (String × PyVal) :=
  if d.any (fun p => decide (p.1 = k)) then
    d.map (fun p => if p.1 = k then (k, v) else p)
  else d ++ [(k, v)]

/-- Python d.update(e) over association lists. -/
def dictUpdate (d e : List (String × PyVal)) : List (String × PyVal) :=
  e.foldl (fun a p => dictSet a p.1 p.2) d

/-- Python dict(pairs). -/
def dictFromPairs (ps : List (String × PyVal)) : List (String × PyVal) :=
  dictUpdate [] ps

/-- Python k in d. -/
def dictContains (d : List (String × PyVal)) (k : String) : Bool :=
  d.any (fun p => decide (p.1 = k))

/-- Python l[i:] including negative i (take the last |i| elements, or
all of them when |i| exceeds the length). -/
def pySliceFrom {α : Type} (l : List α) (i : Int) : List α :=
  if 0 ≤ i then l.drop i.toNat
  else l.drop (l.length - min i.natAbs l.length)

/-- Python l[:i] including negative i (drop the last |i| elements). -/
def pySliceTo {α : Type} (l : List α) (i : Int) : List α :=
  if 0 ≤ i then l.take i.toNat
  else l.take (l.length - min i.natAbs l.length)

/-- The fields of the code object that argument binding reads. -/
structure CodeObj where
  co_name : String
  co_argcount : Nat
  co_kwonlyargcount : Nat
  co_varnames : List String
  co_flags : Nat
deriving DecidableEq, Repr

/-- The TypeError variants Function.__call__ raises, plus an internal
marker for a Python IndexError on a malformed code object. -/
inductive BindError where
  | tooManyPositional (fname : String) (argc given : Nat)
  | unexpectedKeyword (fname kw : String)
  | missingRequired (coname : String) (missing : List String)
  | internalIndexError
deriving DecidableEq, Repr

/-- Function.__call__ argument binding: compute params from varnames,
nrequired = -(len(defaults)+int(varkws)) when defaults exist else argc,
prefill params[nrequired:] with the positional defaults and then the
keyword-only defaults, zip the positional arguments over params, handle
VARARGS overflow or reject surplus positionals, route keyword arguments
(the VARKEYWORDS dict is aliased into the locals and detached if a
keyword argument names the var-keyword slot itself), and finally report
params[0:nrequired] entries still missing from the locals. -/
def bindArgs (code : CodeObj) (defaults : List PyVal)
    (kwdefaults : List (String × PyVal)) (args : List PyVal)
    (kwargs : List (String × PyVal)) :
    Except BindError (List (String × PyVal)) := do
  let argc := code.co_argcount
  let kwargc := code.co_kwonlyargcount
  let varargs : Bool := (code.co_flags &&& 0x04) != 0
  let varkws : Bool := (code.co_flags &&& 0x08) != 0
  let params := code.co_varnames.take
    (argc + kwargc + (cond varargs 1 0) + (cond varkws 1 0))
  let nrequired : Int :=
    if defaults.isEmpty then (argc : Int)
    else -(((defaults.length : Int)) + (cond varkws 1 0))
  let f0 := dictFromPairs ((pySliceFrom params nrequired).zip defaults)
  let f1 := dictUpdate f0 kwdefaults
  let f2 := dictUpdate f1 (params.zip args)
  let f3 ←
    if varargs then
      match params.get? argc with
      | some pname => pure (dictSet f2 pname (.tuple (args.drop argc)))
      | none => throw BindError.internalIndexError
    else if argc < args.length then
      throw (BindError.tooManyPositional code.co_name argc args.length)
    else pure f2
  let lastP := params.getLast?
  let f4 ←
    if varkws then
      match lastP with
      | some lp => pure (dictSet f3 lp (.strdict []))
      | none => throw BindError.internalIndexError
    else pure f3
  let st ← kwargs.foldlM
    (fun (st : List (String × PyVal) × List (String × PyVal) × Bool) p => do
      let (fl, vk, broken) := st
      if params.contains p.1 then
        pure (dictSet fl p.1 p.2, vk,
          broken || (varkws && (some p.1 == lastP)))
      else if varkws then
        pure (fl, dictSet vk p.1 p.2, broken)
      else
        throw (BindError.unexpectedKeyword code.co_name p.1))
    (f4, ([] : List (String × PyVal)), false)
  let (f5, vkd, aliasBroken) := st
  let f6 :=
    if varkws && !aliasBroken then
      match lastP with
      | some lp => dictSet f5 lp (.strdict vkd)
      | none => f5
    else f5
  let missing := (pySliceTo params nrequired).filter
    (fun v => !(dictContains f6 v))
  if missing.isEmpty then pure f6
  else throw (BindError.missingRequired code.co_name missing)

/- ## Block stack and unwinding
   Source: bytefall/objects/frameobject.py (Block, Frame.push_block,
   pop_block, unwind_block, unwind_except_handler, manage_block_stack)
   and bytefall/ops.py (Operation.LOAD_CONST, Operation.POP_TOP,
   Operation.SETUP_LOOP, OperationPy35.WITH_CLEANUP_START).  The value
   stack and the block stack are head-as-top lists.  f_lasti is a value,
   because Frame.jump stores whatever it receives. -/

/-- The block types appearing in the source ('loop', 'setup-except',
'finally', 'except-handler'). -/
inductive BlockType where
  | loop
  | setupExcept
  | finallyB
  | exceptHandler
deriving DecidableEq, Repr

/-- A Block record (type, handler, level). -/
structure Block where
  type : BlockType
  handler : Option Int
  level : Int
deriving DecidableEq, Repr

/-- Values on a frame's value stack for the block-machinery claims:
opaque objects, integers, strings (the why markers), None, the class
NoneType, and exception classes. -/
inductive CVal where
  | obj (n : Nat)
  | intV (n : Int)
  | strV (s : String)
  | noneV
  | noneTypeV
  | excV (e : PyExc)
deriving DecidableEq, Repr

/-- The frame fields the block machinery touches. -/
structure C3Frame where
  stack : List CVal
  blocks : List Block
  f_lasti : CVal
deriving DecidableEq, Repr

/-- The GlobalCache slots the block machinery reads and writes. -/
structure C3Cache where
  return_value : CVal
  new_exception : CVal × CVal × CVal
  last_exception : Option (CVal × CVal × CVal)
deriving DecidableEq, Repr

/-- A frame together with the process-wide scratch state. -/
structure C3State where
  frame : C3Frame
  cache : C3Cache
deriving DecidableEq, Repr

/-- The strings the source uses for the why values. -/
def whyStr : Why → String
  | .ret => "return"
  | .breakW => "break"
  | .continueW => "continue"
  | .exception => "exception"
  | .reraise => "reraise"
  | .yieldW => "yield"
  | .silenced => "silenced"
  | .extendedArg => "extended_arg"

/-- Frame.push_block: the default level is the current stack size. -/
def push_block (f : C3Frame) (ty : BlockType) (handler : Option Int)
    (level : Option Int) : C3Frame :=
  let lv : Int := match level with
    | none => (f.stack.length : Int)
    | some l => l
  { f with blocks := ⟨ty, handler, lv⟩ :: f.blocks }

/-- Frame.unwind_block: pop values until the stack size is the block's
level (a negative level empties the stack and stops). -/
def unwind_block (f : C3Frame) (b : Block) : C3Frame :=
  { f with stack := f.stack.drop (f.stack.length - b.level.toNat) }

/-- Frame.unwind_except_handler: pop values until the size is level + 3,
then pop the retained triple into the current-exception slot; fewer than
three poppable values make the unpacking fail. -/
def unwind_except_handler (st : C3State) (b : Block) :
    Except PyExc C3State :=
  let f := st.frame
  let keep := (b.level + 3).toNat
  let s1 := f.stack.drop (f.stack.length - keep)
  match s1 with
  | exctype :: value :: tb :: rest =>
    .ok { frame := { f with stack := rest },
          cache := { st.cache with new_exception := (exctype, value, tb) } }
  | _ => .error .valueError

/-- Frame.jump as used by the block machinery. -/
def jumpTo (f : C3Frame) (target : CVal) : C3Frame :=
  { f with f_lasti := target }

/-- The value self.jump(block.handler) receives. -/
def handlerVal (b : Block) : CVal :=
  match b.handler with
  | some n => .intV n
  | none => .noneV

/-- Frame.manage_block_stack: the unwinding policy for one block, the
direct port of the source's branch order. -/
def manage_block_stack (st : C3State) (why : Why) :
    Except PyExc (Option Why × C3State) :=
  if why = .yieldW then .error .assertionError
  else
    match st.frame.blocks with
    | [] => .error .indexError
    | b :: rest =>
      if b.type = .loop ∧ why = .continueW then
        .ok (none, { st with
          frame := jumpTo st.frame st.cache.return_value })
      else
        let f1 := { st.frame with blocks := rest }
        if b.type = .exceptHandler then
          match unwind_except_handler { st with frame := f1 } b with
          | .error e => .error e
          | .ok st' => .ok (some why, st')
        else
          let f2 := unwind_block f1 b
          if b.type = .loop ∧ why = .breakW then
            .ok (none, { st with frame := jumpTo f2 (handlerVal b) })
          else if why = .exception ∧
              (b.type = .setupExcept ∨ b.type = .finallyB) then
            let f3 := push_block f2 .exceptHandler none none
            let ne := st.cache.new_exception
            let f4 := { f3 with
              stack := ne.1 :: ne.2.1 :: ne.2.2 :: f3.stack }
            let le := st.cache.last_exception.getD
              (.noneTypeV, .noneV, .noneV)
            let f5 := { f4 with
              stack := le.1 :: le.2.1 :: le.2.2 :: f4.stack }
            let cache' := { st.cache with
              new_exception := le, last_exception := none }
            .ok (none, { frame := jumpTo f5 (handlerVal b),
                         cache := cache' })
          else if b.type = .finallyB then
            let f3 := if why = .ret ∨ why = .continueW
              then { f2 with
                stack := st.cache.return_value :: f2.stack }
              else f2
            let f4 := { f3 with
              stack := .strV (whyStr why) :: f3.stack }
            .ok (none, { st with frame := jumpTo f4 (handlerVal b) })
          else
            .ok (some why, { st with frame := f2 })

/-- Operation.LOAD_CONST. -/
def LOAD_CONST (c : CVal) (st : C3State) : C3State :=
  { st with frame := { st.frame with stack := c :: st.frame.stack } }

/-- Operation.SETUP_LOOP. -/
def SETUP_LOOP (dest : Int) (st : C3State) : C3State :=
  { st with frame := push_block st.frame .loop (some dest) none }

/-- Operation.POP_TOP. -/
def POP_TOP (st : C3State) : Except PyExc C3State :=
  match st.frame.stack with
  | [] => .error .indexError
  | _ :: rest =>
    .ok { st with frame := { st.frame with stack := rest } }

/-- OperationPy35.WITH_CLEANUP_START: dispatch on the top discriminator
(None, a why string, or an exception class), reposition the stack,
rewrite the except-handler block with its level lowered by one in the
exception case, call the context manager's exit function (its behaviour
is the exitCall parameter) and push u and the exit result. -/
def WITH_CLEANUP_START
    (exitCall : CVal → CVal → CVal → Except PyExc CVal)
    (st : C3State) : Except PyExc C3State :=
  match st.frame.stack with
  | [] => .error .indexError
  | u :: rest =>
    match u with
    | .noneV =>
      match rest with
      | _ef :: rest1 =>
        match exitCall .noneV .noneV .noneV with
        | .error e2 => .error e2
        | .ok r =>
          .ok { st with frame := { st.frame with
            stack := r :: .noneV :: .noneV :: rest1 } }
      | [] => .error .indexError
    | .strV s =>
      if s = "return" ∨ s = "continue" then
        match rest with
        | a :: _ef :: rest1 =>
          match exitCall .noneV .noneV .noneV with
          | .error e2 => .error e2
          | .ok r =>
            .ok { st with frame := { st.frame with
              stack := r :: .noneV :: .strV s :: a :: rest1 } }
        | _ => .error .indexError
      else
        match rest with
        | _ef :: rest1 =>
          match exitCall .noneV .noneV .noneV with
          | .error e2 => .error e2
          | .ok r =>
            .ok { st with frame := { st.frame with
              stack := r :: .noneV :: .strV s :: rest1 } }
        | [] => .error .indexError
    | .excV e =>
      match rest with
      | v1 :: w1 :: t1 :: t2 :: t3 :: _ef :: rest1 =>
        match st.frame.blocks with
        | [] => .error .indexError
        | bb :: brest =>
          if bb.type = .exceptHandler then
            match exitCall (.excV e) v1 w1 with
            | .error e2 => .error e2
            | .ok r =>
              .ok { st with frame := { st.frame with
                stack := r :: .excV e :: .excV e :: v1 :: w1 :: .noneV
                  :: t1 :: t2 :: t3 :: rest1,
                blocks :=
                  ⟨.exceptHandler, bb.handler, bb.level - 1⟩ :: brest } }
          else .error .assertionError
      | _ => .error .indexError
    | .noneTypeV => .error .vmError
    | _ => .error .typeError

/-- The invariant of claim C3: every block's recorded level is at most
the current value-stack size. -/
def blocksWithinStack (f : C3Frame) : Prop :=
  ∀ b ∈ f.blocks, b.level ≤ (f.stack.length : Int)

instance (f : C3Frame) : Decidable (blocksWithinStack f) :=
  inferInstanceAs
    (Decidable (∀ b ∈ f.blocks, b.level ≤ (f.stack.length : Int)))

/-- Auxiliary invariant the evaluator maintains: block levels do not
increase from the top of the block stack downwards. -/
def blocksMonotone (f : C3Frame) : Prop :=
  f.blocks.Chain' (fun btop bnext => bnext.level ≤ btop.level)

instance :
    DecidableRel
      (fun (btop bnext : Block) => Block.level bnext ≤ Block.level btop) :=
  fun a b => Int.decLe b.level a.level

instance (f : C3Frame) : Decidable (blocksMonotone f) :=
  decidable_of_iff
    (List.Chain'
      (fun btop bnext => Block.level bnext ≤ Block.level btop) f.blocks)
    Iff.rfl

/-- Shape of an except-handler block on top: its retained triple must
actually be on the stack. -/
def topBlockShape (st : C3State) : Bool :=
  match st.frame.blocks with
  | [] => true
  | b :: _ =>
    !(decide (b.type = BlockType.exceptHandler))
      || decide ((b.level + 3 : Int) ≤ (st.frame.stack.length : Int))

/-- A frame state before any instruction has run. -/
def c3Init : C3State :=
  ⟨⟨[], [], .intV 0⟩, ⟨.noneV, (.noneTypeV, .noneV, .noneV), none⟩⟩


/- ## Theorems about the embedded definitions -/

/-- Supporting result: the two decoders agree on tables whose line
increments are all below 0x80, so the divergence is exactly the missing
signed interpretation. -/
theorem lineno_agree_on_unsigned (lnotab : List (Nat × Nat)) (fl : Int)
    (lasti : Nat) (h : ∀ p ∈ lnotab, p.2 < 0x80) :
    (check_line_number lnotab fl lasti).1 = f_lineno lnotab fl lasti := by
  unfold check_line_number f_lineno get_lineno
  suffices H : ∀ (l : List (Nat × Nat)) (addr lb : Nat) (line : Int),
      (∀ p ∈ l, p.2 < 0x80) →
      (checkLineNumberAux lasti l addr lb line).1
        = getLinenoAux lasti l addr 0 + line by
    have := H lnotab 0 0 fl h
    simpa using this
  intro l
  induction l with
  | nil => intro addr lb line _; simp [checkLineNumberAux, getLinenoAux]
  | cons p rest ih =>
    intro addr lb line hall
    obtain ⟨ai, li⟩ := p
    have hli : li < 0x80 := hall (ai, li) (List.mem_cons_self _ _)
    by_cases hgt : addr + ai > lasti
    · simp [checkLineNumberAux, getLinenoAux, hgt]
    · have hsign : ¬ (li ≥ 0x80) := by omega
      have h1 :
          (checkLineNumberAux lasti ((ai, li) :: rest) addr lb line).1
            = (checkLineNumberAux lasti rest (addr + ai) (addr + ai)
                (line + (li : Int))).1 := by
        simp [checkLineNumberAux, hgt]
      have h2 : getLinenoAux lasti ((ai, li) :: rest) addr 0
          = getLinenoAux lasti rest (addr + ai) ((li : Int)) := by
        simp [getLinenoAux, hgt, hsign]
      rw [h1, h2]
      have ha := ih (addr + ai) (addr + ai) (line + (li : Int))
        (fun p hp => hall p (List.mem_cons_of_mem _ hp))
      rw [ha]
      have hb : ∀ (l2 : List (Nat × Nat)) (a : Nat) (x y : Int),
          getLinenoAux lasti l2 a (x + y) = getLinenoAux lasti l2 a x + y := by
        intro l2
        induction l2 with
        | nil => intro a x y; simp [getLinenoAux]
        | cons q qrest ihq =>
          intro a x y
          obtain ⟨qa, ql⟩ := q
          by_cases hq : a + qa > lasti
          · simp [getLinenoAux, hq]
          · simp only [getLinenoAux, hq, if_neg hq]
            rw [show x + y + (if ql ≥ 0x80 then (ql : Int) - 0x100 else (ql : Int))
                  = x + (if ql ≥ 0x80 then (ql : Int) - 0x100 else (ql : Int)) + y by ring]
            exact ihq _ _ _
      have hc := hb rest (addr + ai) 0 (li : Int)
      rw [zero_add] at hc
      rw [hc]
      ring

/-- C10: with internal-debug mode off, whenever the opcode handler raises
any exception (t, v, tb), dispatch traps it, stores last_exception as
(t, v, None) — discarding the original traceback — and returns
why = 'exception'; a non-raising handler's why passes through with the
stored exception untouched. -/
theorem dispatch_traps_and_drops_traceback {T V B : Type} (t : T) (v : V)
    (tb : Option B) (c : Option (T × V × Option B)) (w : Option Why) :
    dispatch false (Except.error (t, v, tb)) c
        = Except.ok (some Why.exception, some (t, v, none)) ∧
    dispatch false (Except.ok w) c = Except.ok (w, c) := by
  exact ⟨rfl, rfl⟩

/-- C7 counterexample: the claim says f_back is reset to None in both
cases, including when the nested run propagates an exception; but after
an exception-propagating run the frame is left linked to the resumer. -/
theorem resume_frame_exception_leaves_link :
    (resume_frame (some 7)
        (fun _ => (Except.error PyExc.generatorExit : Except PyExc PyScalar))
        ⟨none⟩).2.f_back = some 7 ∧
    some 7 ≠ (none : Option Nat) := by
  exact ⟨rfl, by decide⟩

/-- C7 (amended): resume_frame links f_back to the current top frame for
the duration of the nested run; it resets f_back to None only when the
run finishes normally (return or yield); when the run propagates an
exception the frame stays linked to the resumer.  No other frame field
is touched. -/
theorem resume_frame_link_unlink {E V : Type} (curTop : Option Nat)
    (run : GenFrame → Except E V) (f : GenFrame) :
    (∀ v, run ⟨curTop⟩ = .ok v →
        resume_frame curTop run f = (.ok v, ⟨none⟩)) ∧
    (∀ e, run ⟨curTop⟩ = .error e →
        resume_frame curTop run f = (.error e, ⟨curTop⟩)) := by
  constructor
  · intro v h
    simp [resume_frame, h]
  · intro e h
    simp [resume_frame, h]

/-- C7 witness: the amended theorem applied at a concrete normal run. -/
theorem resume_frame_link_unlink_witness :
    resume_frame (some 2)
        (fun _ => (Except.ok (PyScalar.int 3) : Except PyExc PyScalar))
        ⟨some 9⟩ = (.ok (PyScalar.int 3), ⟨none⟩) :=
  (resume_frame_link_unlink (some 2) _ ⟨some 9⟩).1 (PyScalar.int 3) rfl

/-- C9: FOR_ITER detects exhaustion only through the iterator protocol
(the fresh sentinel cannot be produced by the iterator): every yielded
value v — None, False and 0 included, since v ranges over all of V —
is pushed above the iterator with no jump, and the iterator is popped
and the cursor set to the decoded target exactly when the iterator is
exhausted. -/
theorem FOR_ITER_pushes_or_jumps {V : Type} (jump : Int) (x : V)
    (rest : List V) (li : Int) :
    (∀ v : V, FOR_ITER jump (.yields v) ⟨x :: rest, li⟩
        = .ok ⟨v :: x :: rest, li⟩) ∧
    FOR_ITER jump (IterNext.exhausted) ⟨x :: rest, li⟩ = .ok ⟨rest, jump⟩ ∧
    (∀ e, FOR_ITER jump (.raises e) ⟨x :: rest, li⟩ = .error e) := by
  refine ⟨fun v => rfl, rfl, fun e => rfl⟩

/-- C2: YIELD_FROM pops the sent value while the sub-iterator stays on
top; the call made is send(u) when the sub-iterator is a Generator or
Coroutine and next() otherwise; on success the result goes to
return_value, the cursor is decremented by one instruction unit and the
returned why is 'yield'; on StopIteration the sub-iterator is popped and
the exception's value pushed. -/
theorem YIELD_FROM_step {V : Type} (c : Int) (x : SubIter V) (u xv : V)
    (below : List V) (li : Int) :
    (∀ v, (if x.isGenOrCoro then x.send u else x.next) = .yields v →
        YIELD_FROM c x ⟨u :: xv :: below, li⟩
          = .ok ⟨some .yieldW, ⟨xv :: below, li - c⟩, some v⟩) ∧
    (∀ w, (if x.isGenOrCoro then x.send u else x.next) = .stopIter w →
        YIELD_FROM c x ⟨u :: xv :: below, li⟩
          = .ok ⟨none, ⟨w :: below, li⟩, none⟩) ∧
    (∀ e, (if x.isGenOrCoro then x.send u else x.next) = .raises e →
        YIELD_FROM c x ⟨u :: xv :: below, li⟩ = .error e) := by
  refine ⟨fun v h => ?_, fun w h => ?_, fun e h => ?_⟩ <;>
    simp [YIELD_FROM, h]

/-- C2 witness: a generator-like sub-iterator that yields 1 when sent
None; YIELD_FROM rewinds the cursor from 10 to 8 with code unit 2. -/
theorem YIELD_FROM_step_witness :
    YIELD_FROM 2
        ⟨true, fun _ => IterStep.yields (PyScalar.int 1),
         IterStep.raises PyExc.typeError⟩
        ⟨[PyScalar.none, PyScalar.int 9], 10⟩
      = .ok ⟨some .yieldW, ⟨[PyScalar.int 9], 8⟩, some (PyScalar.int 1)⟩ :=
  (YIELD_FROM_step 2
      ⟨true, fun _ => IterStep.yields (PyScalar.int 1),
       IterStep.raises PyExc.typeError⟩
      PyScalar.none (PyScalar.int 9) [] 10).1 (PyScalar.int 1) rfl

/-- C4: close() resumes the generator with GeneratorExit and tolerates
StopIteration/GeneratorExit, and a generator yielding a non-None value
raises RuntimeError; but a generator that answers GeneratorExit by
yielding None slips through the `retval is not None` check, so gen_close
returns -1 instead of raising — contradicting the claim's
"whatever that value is (including None)". -/
theorem gen_close_none_yield_escapes :
    gen_close false 0
        (fun _ => (SendResult.yields none : SendResult PyScalar))
      = .ok .retNeg1 ∧
    gen_close false 0
        (fun _ => (SendResult.yields (some (PyScalar.int 0))))
      = .error (.runtimeError "generator ignored GeneratorExit") ∧
    gen_close false 0
        (fun _ => (SendResult.raises .stopIteration : SendResult PyScalar))
      = .ok .closedNone ∧
    gen_close false 0
        (fun _ => (SendResult.raises .generatorExit : SendResult PyScalar))
      = .ok .closedNone ∧
    gen_close false 0
        (fun _ => (SendResult.raises .valueError : SendResult PyScalar))
      = .error .valueError := by
  exact ⟨rfl, rfl, rfl, rfl, rfl⟩

/-- C5: RAISE_VARARGS with argc = 0 while an exception is being handled
re-raises that exception (first conjunct, with a ValueError being
handled); but when no exception is being handled the current-exception
slot holds the (NoneType, None, None) marker, whose type slot is the
class NoneType and not the object None, so do_raise still returns
'reraise' and propagates that null-type triple instead of raising a
runtime error (second conjunct). -/
theorem RAISE_VARARGS_bare_raise :
    RAISE_VARARGS 0
        ⟨.cls .valueError, .instO .valueError none, .noneO⟩ []
      = .ok ((.reraise,
          some ⟨.cls .valueError, .instO .valueError none, .noneO⟩), []) ∧
    RAISE_VARARGS 0 ⟨.noneType, .noneO, .noneO⟩ []
      = .ok ((.reraise, some ⟨.noneType, .noneO, .noneO⟩), []) ∧
    (∀ cur : ExcTriple,
        (do_raise cur .noneO .noneO).1 = .exception
          ∨ (do_raise cur .noneO .noneO).1 = .reraise) := by
  refine ⟨rfl, rfl, fun cur => ?_⟩
  by_cases h : cur.ty = .pyNone
  · exact Or.inl (by simp [do_raise, h])
  · exact Or.inr (by simp [do_raise, h])

/-- C8 counterexample: on the 3.4 table the source SET_ADD and MAP_ADD
index the frame's value stack (frame.stack[-count]) and succeed, while
the claimed frame[-count] subscript of the frame object would raise
TypeError; at stack [5, set()] with count 1 the source adds 5 to the
set, and at stack [2, 1, dict()] it stores 1 under key 2. -/
theorem SET_ADD_MAP_ADD_use_value_stack :
    SET_ADD 1 ⟨[.scalar (.int 5), .pyset []]⟩
      = .ok ⟨[.pyset [.int 5]]⟩ ∧
    SET_ADD_frameIndexed 1 ⟨[.scalar (.int 5), .pyset []]⟩
      = .error .typeError ∧
    MAP_ADD 1 ⟨[.scalar (.int 2), .scalar (.int 1), .pydict []]⟩
      = .ok ⟨[.pydict [(.int 2, .scalar (.int 1))]]⟩ ∧
    MAP_ADD_frameIndexed 1
        ⟨[.scalar (.int 2), .scalar (.int 1), .pydict []]⟩
      = .error .typeError ∧
    (Except.ok ⟨[.pyset [.int 5]]⟩ : Except PyExc ContainerFrame)
      ≠ .error .typeError := by
  refine ⟨rfl, rfl, rfl, rfl, fun h => Except.noConfusion h⟩

/-- Python list lookup at the length of the left part of an append. -/
theorem listGetAtSplit {α : Type} (pre : List α) (c : α) (suf : List α) :
    (pre ++ c :: suf).get? pre.length = some c := by
  induction pre with
  | nil => rfl
  | cons a l ih =>
    show (l ++ c :: suf).get? l.length = some c
    exact ih

/-- Python list update at the length of the left part of an append. -/
theorem listSetAtSplit {α : Type} (pre : List α) (c v : α)
    (suf : List α) :
    (pre ++ c :: suf).set pre.length v = pre ++ v :: suf := by
  induction pre with
  | nil => rfl
  | cons a l ih =>
    show a :: (l ++ c :: suf).set l.length v = a :: (l ++ v :: suf)
    rw [ih]

/-- C8 (amended): SET_ADD and MAP_ADD operate on the value stack at
depth count — with the container c sitting count-1 positions below the
popped operands, SET_ADD adds the popped scalar into the set there and
MAP_ADD stores the popped value under the popped key in the dict there,
leaving the rest of the stack unchanged. -/
theorem SET_ADD_MAP_ADD_stack_depth (count : Nat) (v k : PyScalar)
    (mv : PyVal) (xs : List PyScalar) (ds : List (PyScalar × PyVal))
    (pre suf : List PyVal) (h : pre.length + 1 = count) :
    SET_ADD count ⟨.scalar v :: (pre ++ .pyset xs :: suf)⟩
      = .ok ⟨pre ++ .pyset (pySetAdd xs v) :: suf⟩ ∧
    MAP_ADD count ⟨.scalar k :: mv :: (pre ++ .pydict ds :: suf)⟩
      = .ok ⟨pre ++ .pydict (assocSet ds k mv) :: suf⟩ := by
  have hc : count ≠ 0 := by omega
  have hidx : count - 1 = pre.length := by omega
  constructor
  · simp only [SET_ADD, stackGet, stackSet, if_neg hc, hidx,
      listGetAtSplit, listSetAtSplit]
  · simp only [MAP_ADD, stackGet, stackSet, if_neg hc, hidx,
      listGetAtSplit, listSetAtSplit]

/-- C8 witness: the amended theorem at count 2 with one value between
the operands and the containers. -/
theorem SET_ADD_MAP_ADD_stack_depth_witness :
    SET_ADD 2 ⟨[.scalar (.int 7), .scalar .none, .pyset [.int 7]]⟩
      = .ok ⟨[.scalar .none, .pyset [.int 7]]⟩ ∧
    MAP_ADD 2
        ⟨[.scalar (.str "k"), .scalar (.bool true),
          .scalar .none, .pydict []]⟩
      = .ok ⟨[.scalar .none,
          .pydict [(.str "k", .scalar (.bool true))]]⟩ := by
  have h := SET_ADD_MAP_ADD_stack_depth 2 (.int 7) (.str "k")
    (.scalar (.bool true)) [.int 7] [] [.scalar .none] [] rfl
  exact ⟨h.1, h.2⟩

/-- C1: for def f(a, b=1, *args) — argc 2, one positional default, the
VARARGS flag set — calling f(5) must, per the claim, require only the
first argc - len(defaults) = 1 parameter and right-align the default
over b, binding a=5, b=1, args=().  The source instead computes
nrequired = -(len(defaults)+int(varkws)) = -1, so the default prefills
the varargs slot, the required slice params[0:-1] = [a, b] includes b,
and the call raises TypeError naming b as missing. -/
theorem bindArgs_varargs_defaults_failure :
    bindArgs ⟨"f", 2, 0, ["a", "b", "args"], 0x04⟩
        [.scalar (.int 1)] [] [.scalar (.int 5)] []
      = .error (.missingRequired "f" ["b"]) ∧
    bindArgs ⟨"g", 2, 0, ["a", "b"], 0⟩
        [.scalar (.int 1)] [] [.scalar (.int 5)] []
      = .ok [("b", .scalar (.int 1)), ("a", .scalar (.int 5))] := by
  exact ⟨rfl, rfl⟩

/-- C3 counterexample: the claim asserts the invariant holds at every
reachable execution point and is preserved by every opcode handler; but
running LOAD_CONST, SETUP_LOOP, POP_TOP from a fresh frame — states the
evaluator reaches on a code object with exactly those instructions —
leaves a loop block recording level 1 over an empty value stack, so
POP_TOP does not preserve the invariant. -/
theorem POP_TOP_breaks_block_level_invariant :
    blocksWithinStack (SETUP_LOOP 9 (LOAD_CONST (.intV 0) c3Init)).frame ∧
    POP_TOP (SETUP_LOOP 9 (LOAD_CONST (.intV 0) c3Init))
      = .ok ⟨⟨[], [⟨.loop, some 9, 1⟩], .intV 0⟩, c3Init.cache⟩ ∧
    ¬ blocksWithinStack (⟨[], [⟨.loop, some 9, 1⟩], .intV 0⟩ : C3Frame) := by
  refine ⟨by decide, rfl, by decide⟩

/-- A head block of a monotone block stack bounds every later block's
level. -/
theorem monoHeadBound {b : Block} {rest : List Block}
    (h : List.Chain' (fun btop bnext => bnext.level ≤ btop.level)
      (b :: rest)) :
    ∀ b' ∈ rest, b'.level ≤ b.level := by
  haveI : IsTrans Block (fun btop bnext => bnext.level ≤ btop.level) :=
    ⟨fun x y z hxy hyz => le_trans hyz hxy⟩
  rw [List.chain'_iff_pairwise] at h
  exact (List.pairwise_cons.mp h).1

/-- C3 (amended): the block-level invariant — every block's recorded
level is at most the value-stack size — is established by push_block
with the default level, preserved by manage_block_stack (given the block
levels are monotone and an except-handler on top retains its triple on
the stack), and preserved by WITH_CLEANUP_START; it is not preserved
unconditionally by every opcode handler (see the POP_TOP
counterexample). -/
theorem block_level_invariant_machinery :
    (∀ (f : C3Frame) (ty : BlockType) (h : Option Int),
        blocksWithinStack f →
        blocksWithinStack (push_block f ty h none) ∧
        (blocksMonotone f → blocksMonotone (push_block f ty h none))) ∧
    (∀ (st : C3State) (why : Why) (w : Option Why) (st' : C3State),
        blocksWithinStack st.frame → blocksMonotone st.frame →
        topBlockShape st = true →
        manage_block_stack st why = .ok (w, st') →
        blocksWithinStack st'.frame ∧ blocksMonotone st'.frame) ∧
    (∀ (ec : CVal → CVal → CVal → Except PyExc CVal) (st st' : C3State),
        blocksWithinStack st.frame →
        WITH_CLEANUP_START ec st = .ok st' →
        blocksWithinStack st'.frame) := by
  refine ⟨?_, ?_, ?_⟩
  · -- push_block with the default level
    intro f ty h hwithin
    constructor
    · intro b hb
      rcases List.mem_cons.mp hb with rfl | hb'
      · exact le_refl _
      · exact hwithin b hb'
    · intro hmono
      show List.Chain' _ (⟨ty, h, (f.stack.length : Int)⟩ :: f.blocks)
      rw [List.chain'_cons']
      exact ⟨fun b2 hb2 => hwithin b2 (List.mem_of_mem_head? hb2), hmono⟩
  · -- manage_block_stack
    intro st why w st' hwithin hmono hshape hok
    unfold manage_block_stack at hok
    by_cases hy : why = Why.yieldW
    · rw [if_pos hy] at hok
      exact Except.noConfusion hok
    rw [if_neg hy] at hok
    rcases hb : st.frame.blocks with _ | ⟨b, rest⟩
    · rw [hb] at hok
      exact Except.noConfusion hok
    rw [hb] at hok
    have hwb : b.level ≤ (st.frame.stack.length : Int) :=
      hwithin b (by rw [hb]; exact List.mem_cons_self _ _)
    have hwr : ∀ b' ∈ rest, b'.level ≤ (st.frame.stack.length : Int) :=
      fun b' hb' => hwithin b' (by rw [hb]; exact List.mem_cons_of_mem _ hb')
    have hmc : List.Chain'
        (fun btop bnext => bnext.level ≤ btop.level) (b :: rest) := by
      have := hmono
      unfold blocksMonotone at this
      rwa [hb] at this
    have hmr : List.Chain'
        (fun btop bnext => bnext.level ≤ btop.level) rest :=
      hmc.tail
    have hm' : ∀ b' ∈ rest, b'.level ≤ b.level := monoHeadBound hmc
    simp only [] at hok
    by_cases h1 : b.type = .loop ∧ why = .continueW
    · rw [if_pos h1] at hok
      rw [Except.ok.injEq, Prod.mk.injEq] at hok
      obtain ⟨-, hst⟩ := hok
      subst hst
      exact ⟨hwithin, hmono⟩
    rw [if_neg h1] at hok
    by_cases h2 : b.type = .exceptHandler
    · rw [if_pos h2] at hok
      rcases hu : unwind_except_handler
          { st with frame := { st.frame with blocks := rest } } b with e | st2
      · rw [hu] at hok
        exact Except.noConfusion hok
      rw [hu] at hok
      rw [Except.ok.injEq, Prod.mk.injEq] at hok
      obtain ⟨-, hst⟩ := hok
      subst hst
      -- extract the stack shape from the unwind
      unfold unwind_except_handler at hu
      dsimp only at hu
      rcases hs : (st.frame.stack.drop
          (st.frame.stack.length - (b.level + 3).toNat)) with _ | ⟨a1, s1⟩
      · rw [hs] at hu
        exact Except.noConfusion hu
      rcases s1 with _ | ⟨a2, s2⟩
      · rw [hs] at hu
        exact Except.noConfusion hu
      rcases s2 with _ | ⟨a3, s3⟩
      · rw [hs] at hu
        exact Except.noConfusion hu
      rw [hs] at hu
      rw [Except.ok.injEq] at hu
      subst hu
      have hlen := congrArg List.length hs
      simp only [List.length_drop, List.length_cons] at hlen
      have hsh : b.level + 3 ≤ (st.frame.stack.length : Int) := by
        have h6 := hshape
        unfold topBlockShape at h6
        rw [hb] at h6
        simp only [h2, decide_True, Bool.not_true, Bool.false_or,
          decide_eq_true_eq] at h6
        exact h6
      constructor
      · intro b' hb'
        have h3 := hm' b' hb'
        have h4 := hwr b' hb'
        simp only [List.length_cons] at *
        omega
      · exact hmr
    rw [if_neg h2] at hok
    by_cases h3 : b.type = .loop ∧ why = .breakW
    · rw [if_pos h3] at hok
      rw [Except.ok.injEq, Prod.mk.injEq] at hok
      obtain ⟨-, hst⟩ := hok
      subst hst
      constructor
      · intro b' hb'
        simp only [jumpTo, unwind_block] at hb'
        have h4 := hm' b' hb'
        have h5 := hwr b' hb'
        simp only [jumpTo, unwind_block, List.length_drop]
        omega
      · show List.Chain' _ rest
        exact hmr
    rw [if_neg h3] at hok
    by_cases h4 : why = .exception ∧
        (b.type = .setupExcept ∨ b.type = .finallyB)
    · rw [if_pos h4] at hok
      rw [Except.ok.injEq, Prod.mk.injEq] at hok
      obtain ⟨-, hst⟩ := hok
      subst hst
      constructor
      · intro b' hb'
        simp only [jumpTo, unwind_block, push_block, List.mem_cons,
          List.length_cons, List.length_drop] at hb' ⊢
        rcases hb' with rfl | hb'
        · dsimp only
          omega
        · have h5 := hm' b' hb'
          have h6 := hwr b' hb'
          omega
      · show blocksMonotone _
        unfold blocksMonotone
        simp only [jumpTo, unwind_block, push_block]
        rw [List.chain'_cons']
        constructor
        · intro b2 hb2
          have h5 := hm' b2 (List.mem_of_mem_head? hb2)
          have h6 := hwr b2 (List.mem_of_mem_head? hb2)
          simp only [List.length_drop]
          omega
        · exact hmr
    rw [if_neg h4] at hok
    by_cases h5 : b.type = .finallyB
    · rw [if_pos h5] at hok
      rw [Except.ok.injEq, Prod.mk.injEq] at hok
      obtain ⟨-, hst⟩ := hok
      subst hst
      constructor
      · intro b' hb'
        have h6 : b' ∈ rest := by
          by_cases h8 : why = Why.ret ∨ why = Why.continueW <;>
            simp only [jumpTo, unwind_block, h8, if_pos, if_neg,
              ite_true, ite_false] at hb' <;> exact hb'
        have h7 := hm' b' h6
        have h9 := hwr b' h6
        by_cases h8 : why = Why.ret ∨ why = Why.continueW <;>
          simp only [jumpTo, unwind_block, h8, ite_true, ite_false,
            List.length_cons, List.length_drop] <;> omega
      · unfold blocksMonotone
        by_cases h8 : why = Why.ret ∨ why = Why.continueW <;>
          simp only [jumpTo, unwind_block, h8, ite_true, ite_false] <;>
          exact hmr
    rw [if_neg h5] at hok
    rw [Except.ok.injEq, Prod.mk.injEq] at hok
    obtain ⟨-, hst⟩ := hok
    subst hst
    constructor
    · intro b' hb'
      simp only [unwind_block] at hb'
      have h6 := hm' b' hb'
      have h7 := hwr b' hb'
      simp only [unwind_block, List.length_drop]
      omega
    · exact hmr
  · -- WITH_CLEANUP_START
    intro ec st st' hwithin hok
    unfold WITH_CLEANUP_START at hok
    rcases hs : st.frame.stack with _ | ⟨u, rest⟩
    · rw [hs] at hok
      exact Except.noConfusion hok
    rw [hs] at hok
    have hlen : st.frame.stack.length = rest.length + 1 := by
      rw [hs]; simp
    rcases u with n | n | s | _ | _ | e
    · exact Except.noConfusion hok
    · exact Except.noConfusion hok
    · -- string discriminator
      dsimp only at hok
      by_cases hsw : s = "return" ∨ s = "continue"
      · rw [if_pos hsw] at hok
        rcases rest with _ | ⟨a, rest1⟩
        · exact Except.noConfusion hok
        rcases rest1 with _ | ⟨ef, rest2⟩
        · exact Except.noConfusion hok
        dsimp only at hok
        rcases he : ec .noneV .noneV .noneV with e2 | r
        · rw [he] at hok
          exact Except.noConfusion hok
        rw [he] at hok
        rw [Except.ok.injEq] at hok
        subst hok
        intro b' hb'
        have h1 := hwithin b' hb'
        rw [hlen] at h1
        simp only [List.length_cons] at h1 ⊢
        omega
      · rw [if_neg hsw] at hok
        rcases rest with _ | ⟨ef, rest1⟩
        · exact Except.noConfusion hok
        dsimp only at hok
        rcases he : ec .noneV .noneV .noneV with e2 | r
        · rw [he] at hok
          exact Except.noConfusion hok
        rw [he] at hok
        rw [Except.ok.injEq] at hok
        subst hok
        intro b' hb'
        have h1 := hwithin b' hb'
        rw [hlen] at h1
        simp only [List.length_cons] at h1 ⊢
        omega
    · -- None discriminator
      rcases rest with _ | ⟨ef, rest1⟩
      · exact Except.noConfusion hok
      dsimp only at hok
      rcases he : ec .noneV .noneV .noneV with e2 | r
      · rw [he] at hok
        exact Except.noConfusion hok
      rw [he] at hok
      rw [Except.ok.injEq] at hok
      subst hok
      intro b' hb'
      have h1 := hwithin b' hb'
      rw [hlen] at h1
      simp only [List.length_cons] at h1 ⊢
      omega
    · -- NoneType discriminator
      exact Except.noConfusion hok
    · -- exception-class discriminator
      rcases rest with _ | ⟨v1, r1⟩
      · exact Except.noConfusion hok
      rcases r1 with _ | ⟨w1, r2⟩
      · exact Except.noConfusion hok
      rcases r2 with _ | ⟨t1, r3⟩
      · exact Except.noConfusion hok
      rcases r3 with _ | ⟨t2, r4⟩
      · exact Except.noConfusion hok
      rcases r4 with _ | ⟨t3, r5⟩
      · exact Except.noConfusion hok
      rcases r5 with _ | ⟨ef, rest1⟩
      · exact Except.noConfusion hok
      dsimp only at hok
      rcases hbl : st.frame.blocks with _ | ⟨bb, brest⟩
      · rw [hbl] at hok
        exact Except.noConfusion hok
      rw [hbl] at hok
      dsimp only at hok
      by_cases hbt : bb.type = .exceptHandler
      · rw [if_pos hbt] at hok
        rcases he : ec (.excV e) v1 w1 with e2 | r
        · rw [he] at hok
          exact Except.noConfusion hok
        rw [he] at hok
        rw [Except.ok.injEq] at hok
        subst hok
        intro b' hb'
        dsimp only at hb' ⊢
        simp only [List.mem_cons] at hb'
        rcases hb' with rfl | hb'
        · have h1 := hwithin bb (by rw [hbl]; exact List.mem_cons_self _ _)
          rw [hlen] at h1
          simp only [List.length_cons] at h1 ⊢
          omega
        · have h1 := hwithin b'
            (by rw [hbl]; exact List.mem_cons_of_mem _ hb')
          rw [hlen] at h1
          simp only [List.length_cons] at h1 ⊢
          omega
      · rw [if_neg hbt] at hok
        exact Except.noConfusion hok

/-- C3 witness: the three conjuncts of the amended theorem applied at
concrete states — a block pushed over a one-value stack, a finally block
unwound on a return, and a with-cleanup over a None discriminator. -/
theorem block_level_invariant_machinery_witness :
    blocksWithinStack
      (push_block ⟨[.noneV], [], .intV 0⟩ .loop (some 3) none) ∧
    (blocksWithinStack
        (⟨⟨[.strV "return", .noneV, .noneV],
           [], .intV 5⟩,
          ⟨.noneV, (.noneTypeV, .noneV, .noneV), none⟩⟩ : C3State).frame ∧
      blocksMonotone
        (⟨⟨[.strV "return", .noneV, .noneV],
           [], .intV 5⟩,
          ⟨.noneV, (.noneTypeV, .noneV, .noneV), none⟩⟩ : C3State).frame) ∧
    blocksWithinStack
      (⟨⟨[.noneV, .noneV, .noneV], [], .intV 0⟩,
        ⟨.noneV, (.noneTypeV, .noneV, .noneV), none⟩⟩ : C3State).frame := by
  refine ⟨?_, ?_, ?_⟩
  · exact (block_level_invariant_machinery.1
      ⟨[.noneV], [], .intV 0⟩ .loop (some 3) (by decide)).1
  · exact block_level_invariant_machinery.2.1
      ⟨⟨[.noneV, .noneV], [⟨.finallyB, some 5, 1⟩], .intV 0⟩,
        ⟨.noneV, (.noneTypeV, .noneV, .noneV), none⟩⟩
      .ret none
      ⟨⟨[.strV "return", .noneV, .noneV], [], .intV 5⟩,
        ⟨.noneV, (.noneTypeV, .noneV, .noneV), none⟩⟩
      (by decide) (by simp [blocksMonotone]) rfl rfl
  · exact block_level_invariant_machinery.2.2
      (fun _ _ _ => .ok .noneV)
      ⟨⟨[.noneV, .obj 0], [], .intV 0⟩,
        ⟨.noneV, (.noneTypeV, .noneV, .noneV), none⟩⟩
      ⟨⟨[.noneV, .noneV, .noneV], [], .intV 0⟩,
        ⟨.noneV, (.noneTypeV, .noneV, .noneV), none⟩⟩
      (by decide) rfl

/-- C6: the line-number computation of _get_lineno treats a line_incr
byte of 0x80 and above as signed, but the bounded variant
check_line_number adds the raw byte, so the two disagree on any table
with a negative line delta: at table [(2, 0x80)] with first line 1 and
instruction offset 2, f_lineno gives 1 - 128 = -127 while
check_line_number gives 1 + 128 = 129 (with bounds lb 2, ub 32767). -/
theorem check_line_number_unsigned_divergence :
    f_lineno [(2, 0x80)] 1 2 = -127 ∧
    check_line_number [(2, 0x80)] 1 2 = (129, 2, 32767) ∧
    (check_line_number [(2, 0x80)] 1 2).1 ≠ f_lineno [(2, 0x80)] 1 2 := by
  refine ⟨by decide, by decide, by decide⟩

end Bytefall
